import Mathlib

/-!
Verification of the realtime voice-conversation server.

Strings are modelled as `List Char`; machine 16-bit samples as `Int` obtained
from little-endian byte pairs; queues as Lean lists; `asyncio` tasks as records
carrying their `done`/`cancelled` observations; wall-clock time as `Nat`.
Python's `re` whitespace class and `str.strip` are modelled over their ASCII
range, which covers every character the claims exercise.
-/

set_option maxRecDepth 100000

namespace RealtimeAI

/-- ASCII whitespace as matched by the regex class and by `str.strip`. -/
def pyIsSpace (c : Char) : Bool :=
  c == ' ' || c == '\t' || c == '\n' || c == '\r' ||
    c == Char.ofNat 11 || c == Char.ofNat 12

/-- The sentence-terminator class of `utils/text.py`:
the character class in the regex `(?<=[。！？.!?;；:：])\s*`. -/
def sentenceTerminators : List Char :=
  ['。', '！', '？', '.', '!', '?', ';', '；', ':', '：']

/-- Worker for the regex split: the string is cut immediately after every
terminator character, and the whitespace run following the cut is consumed as
the separator.  `skipWs` is true while the separator's whitespace run is being
consumed; `acc` holds the current fragment in reverse. -/
def reSplitGo : Bool → List Char → List Char → List (List Char)
  | _, [], acc => [acc.reverse]
  | skipWs, c :: rest, acc =>
    if skipWs && pyIsSpace c then
      reSplitGo true rest acc
    else if c ∈ sentenceTerminators then
      (acc.reverse ++ [c]) :: reSplitGo true rest []
    else
      reSplitGo false rest (c :: acc)

/-- `re.split(r"(?<=[。！？.!?;；:：])\s*", text)`. -/
def reSplitAfterTerminators (text : List Char) : List (List Char) :=
  reSplitGo false text []

/-- Python `str.strip()`: remove leading and trailing whitespace. -/
def pyStrip (s : List Char) : List Char :=
  ((s.dropWhile pyIsSpace).reverse.dropWhile pyIsSpace).reverse

/-- `utils/text.py` `split_into_sentences`: regex split on the terminator
boundary, strip each fragment, keep the non-empty ones. -/
def split_into_sentences (text : List Char) : List (List Char) :=
  ((reSplitAfterTerminators text).map pyStrip).filter (fun s => !s.isEmpty)

example :
    split_into_sentences ("Hello. I am an AI assistant. How can I help you?".toList) =
      ["Hello.".toList, "I am an AI assistant.".toList, "How can I help you?".toList] := by
  decide

example : split_into_sentences ("Hi.".toList) = ["Hi.".toList] := by decide

example : split_into_sentences ("Hi. How ".toList) = ["Hi.".toList, "How".toList] := by
  decide

/-! ## The streaming segmentation loop

`PipelineHandler._process_llm_response` in `services/websocket/pipeline.py`
keeps a `current_sentence` buffer.  Each LLM chunk is appended; when one of six
terminator characters is present the buffer is split with
`split_into_sentences` and sentences are forwarded to the TTS queue. -/

/-- The terminator characters the streaming loop tests for
(`any(end in current_sentence for end in [...])`). -/
def streamTerminators : List Char := ['。', '！', '？', '.', '!', '?']

/-- Python `s.rfind(pat)`: start index of the last occurrence of `pat` as a
substring of `s`, `-1` when there is none. -/
def pyRfind (s pat : List Char) : Int :=
  match ((List.range (s.length + 1)).filter
      (fun i => pat.isPrefixOf (s.drop i))).getLast? with
  | some i => (i : Int)
  | none => -1

/-- Python `s[k:]` for a possibly negative `k`: a negative start counts from
the end and is clamped at zero. -/
def pySliceFrom (s : List Char) (k : Int) : List Char :=
  if 0 ≤ k then s.drop k.toNat else s.drop (s.length - (-k).toNat)

/-- Membership test of a buffer character in the loop's terminator list. -/
def sentenceTerminatorHit (c : Char) : Bool := streamTerminators.contains c

/-- One pass of the per-chunk segmentation logic of `_process_llm_response`:
append the chunk to the buffer; if a terminator from the six-element set is
present, split; yield all but the last fragment; then, if the buffer ends with
the last fragment, yield it too and clear the buffer, otherwise keep only the
text after the last occurrence of the last fragment.  Returns the sentences
put on the TTS queue and the new buffer. -/
def processChunkStep (current_sentence chunk : List Char) :
    List (List Char) × List Char :=
  let buf := current_sentence ++ chunk
  if buf.any (fun c => sentenceTerminatorHit c) then
    let sentences := split_into_sentences buf
    match sentences.getLast? with
    | none => ([], buf)
    | some lastSentence =>
      if lastSentence.isSuffixOf buf then
        (sentences.dropLast ++ [lastSentence], [])
      else
        (sentences.dropLast,
          pySliceFrom buf (pyRfind buf lastSentence + lastSentence.length))
  else
    ([], buf)

/-- Fold the per-chunk logic over a whole stream of LLM chunks, returning all
sentences yielded to TTS and the final buffer. -/
def runSegmenter (chunks : List (List Char)) : List (List Char) × List Char :=
  chunks.foldl
    (fun st chunk =>
      let r := processChunkStep st.2 chunk
      (st.1 ++ r.1, r.2))
    ([], [])

/-- The stream-end flush of `_process_llm_response`: when the loop is done and
the buffer is non-empty, its sentences are yielded as well. -/
def segmentStream (chunks : List (List Char)) : List (List Char) × List Char :=
  let st := runSegmenter chunks
  if st.2.isEmpty then st else (st.1 ++ split_into_sentences st.2, st.2)

/-- Erase all whitespace: the coarsest whitespace normalisation, so two
strings unequal after it are unequal under any whitespace normalisation. -/
def stripAllWs (s : List Char) : List Char := s.filter (fun c => !pyIsSpace c)

example : runSegmenter [("Hi. How ".toList)] = (["Hi.".toList], " ".toList) := by decide

example : segmentStream [("Hi. How ".toList)] = (["Hi.".toList], " ".toList) := by decide

example : processChunkStep [] ("Hi. Bye".toList) =
    (["Hi.".toList, "Bye".toList], []) := by decide

/-! ### Supporting lemmas for the segmenter -/

lemma terminator_not_space {c : Char} (h : c ∈ sentenceTerminators) :
    pyIsSpace c = false := by
  fin_cases h <;> decide

lemma stream_terminator_mem {c : Char} (h : sentenceTerminatorHit c = true) :
    c ∈ sentenceTerminators := by
  have hmem : c ∈ streamTerminators := by simpa [sentenceTerminatorHit] using h
  fin_cases hmem <;> decide

/-- A fragment that ends in a non-whitespace character does not strip to the
empty string. -/
lemma pyStrip_ne_nil {xs : List Char} {c : Char} (hc : pyIsSpace c = false) :
    pyStrip (xs ++ [c]) ≠ [] := by
  intro h
  unfold pyStrip at h
  rw [List.reverse_eq_nil_iff, List.dropWhile_eq_nil_iff] at h
  have hcmem : c ∈ (xs ++ [c]).takeWhile pyIsSpace ++ (xs ++ [c]).dropWhile pyIsSpace := by
    rw [List.takeWhile_append_dropWhile pyIsSpace (xs ++ [c])]
    exact List.mem_append_right _ (List.mem_singleton.mpr rfl)
  rcases List.mem_append.mp hcmem with h1 | h1
  · exact absurd (List.mem_takeWhile_imp h1) (by simp [hc])
  · have := h c (List.mem_reverse.mpr h1)
    simp [hc] at this

/-- If the input contains a terminator character, the regex split produces at
least one fragment that survives stripping. -/
lemma reSplitGo_strip_exists :
    ∀ (l : List Char) (skipWs : Bool) (acc : List Char),
      (∃ c ∈ l, c ∈ sentenceTerminators) →
      ∃ piece ∈ reSplitGo skipWs l acc, pyStrip piece ≠ [] := by
  intro l
  induction l with
  | nil => intro _ _ h; obtain ⟨c, hc, _⟩ := h; exact absurd hc (by simp)
  | cons c rest ih =>
    intro skipWs acc h
    by_cases hskip : (skipWs && pyIsSpace c) = true
    · have hrest : ∃ d ∈ rest, d ∈ sentenceTerminators := by
        obtain ⟨d, hd, hterm⟩ := h
        rcases List.mem_cons.mp hd with rfl | hd'
        · have := terminator_not_space hterm
          rw [Bool.and_eq_true] at hskip
          rw [this] at hskip
          exact absurd hskip.2 (by simp)
        · exact ⟨d, hd', hterm⟩
      obtain ⟨piece, hmem, hne⟩ := ih true acc hrest
      exact ⟨piece, by rw [reSplitGo]; simp only [hskip, if_true]; exact hmem, hne⟩
    · by_cases hterm : c ∈ sentenceTerminators
      · refine ⟨acc.reverse ++ [c], ?_, pyStrip_ne_nil (terminator_not_space hterm)⟩
        rw [reSplitGo]
        simp only [hskip, if_false, hterm, if_true]
        exact List.mem_cons_self _ _
      · have hrest : ∃ d ∈ rest, d ∈ sentenceTerminators := by
          obtain ⟨d, hd, hdterm⟩ := h
          rcases List.mem_cons.mp hd with rfl | hd'
          · exact absurd hdterm hterm
          · exact ⟨d, hd', hdterm⟩
        obtain ⟨piece, hmem, hne⟩ := ih false (c :: acc) hrest
        refine ⟨piece, ?_, hne⟩
        rw [reSplitGo]
        simp only [hskip, if_false, hterm, if_false]
        exact hmem

/-- If the text contains a terminator, `split_into_sentences` is non-empty. -/
lemma split_into_sentences_ne_nil {text : List Char}
    (h : ∃ c ∈ text, c ∈ sentenceTerminators) :
    split_into_sentences text ≠ [] := by
  obtain ⟨piece, hmem, hne⟩ :=
    reSplitGo_strip_exists text false [] h
  apply List.ne_nil_of_mem (a := pyStrip piece)
  rw [split_into_sentences, List.mem_filter]
  exact ⟨List.mem_map_of_mem pyStrip hmem, by simpa using hne⟩

/-! ### Claim C1 -/

/-- Claim C1: the streaming segmentation loop is claimed to be lossless modulo
whitespace.  It is not: feeding the single chunk `"Hi. How "` makes the loop
yield only `"Hi."` and retain the buffer `" "`, so the word `"How"` is lost —
the concatenation of the yielded sentences and the residual buffer differs
from the concatenation of the inputs even after erasing all whitespace. -/
theorem C1_segmenter_roundtrip_fails :
    segmentStream [("Hi. How ".toList)] = (["Hi.".toList], " ".toList) ∧
    stripAllWs ((segmentStream [("Hi. How ".toList)]).1.flatten ++
        (segmentStream [("Hi. How ".toList)]).2) ≠
      stripAllWs (List.flatten [("Hi. How ".toList)]) := by
  constructor
  · decide
  · decide

/-! ### Claim C2 -/

/-- Segmenter step as the claim words it (for comparison with the code's
`processChunkStep`): append the chunk; if any terminator of the full set
`{。！？.!?;；:：}` is present, split the buffer at terminator boundaries,
yield all resulting fragments except the last, and retain the last fragment —
without yielding it — as the new buffer. -/
def claimSegmentStep (current_sentence chunk : List Char) :
    List (List Char) × List Char :=
  let buf := current_sentence ++ chunk
  if buf.any (fun c => sentenceTerminators.contains c) then
    let fragments := split_into_sentences buf
    match fragments.getLast? with
    | none => ([], buf)
    | some lastFragment => (fragments.dropLast, lastFragment)
  else
    ([], buf)

/-- Claim C2 counterexample: on the chunk `"Hi. Bye"` the claim retains the
unterminated fragment `"Bye"` in the buffer without yielding it, but the code
yields it (the buffer `"Hi. Bye"` ends with `"Bye"`, so the `endswith` branch
fires) and clears the buffer. -/
theorem C2_counterexample :
    processChunkStep [] ("Hi. Bye".toList) = (["Hi.".toList, "Bye".toList], []) ∧
    claimSegmentStep [] ("Hi. Bye".toList) = (["Hi.".toList], "Bye".toList) ∧
    processChunkStep [] ("Hi. Bye".toList) ≠ claimSegmentStep [] ("Hi. Bye".toList) := by
  refine ⟨by decide, by decide, by decide⟩

/-- Claim C2 (amended): the loop splits only when one of the SIX terminators
`{。！？.!?}` is present (not the full ten-character set); it then splits the
buffer with `split_into_sentences` — which always returns at least one
fragment here — and yields all fragments but the last; the last fragment is
ALSO yielded (and the buffer cleared) when the buffer ends with it, and
otherwise the buffer becomes the text after the last occurrence of the last
fragment; with no six-set terminator nothing is yielded and the appended
buffer is retained. -/
theorem C2_stream_step (current chunk : List Char) :
    ((current ++ chunk).any sentenceTerminatorHit = false →
      processChunkStep current chunk = ([], current ++ chunk)) ∧
    ((current ++ chunk).any sentenceTerminatorHit = true →
      (split_into_sentences (current ++ chunk)).getLast?.isSome = true) ∧
    (∀ lastSentence,
      (current ++ chunk).any sentenceTerminatorHit = true →
      (split_into_sentences (current ++ chunk)).getLast? = some lastSentence →
      processChunkStep current chunk =
        if lastSentence.isSuffixOf (current ++ chunk) then
          ((split_into_sentences (current ++ chunk)).dropLast ++ [lastSentence], [])
        else
          ((split_into_sentences (current ++ chunk)).dropLast,
            pySliceFrom (current ++ chunk)
              (pyRfind (current ++ chunk) lastSentence + lastSentence.length))) := by
  refine ⟨?_, ?_, ?_⟩
  · intro h
    unfold processChunkStep
    simp only [h]
    simp
  · intro h
    obtain ⟨c, hc, hhit⟩ := List.any_eq_true.mp h
    have hne := split_into_sentences_ne_nil
      ⟨c, hc, stream_terminator_mem hhit⟩
    rw [Option.isSome_iff_ne_none]
    intro hnone
    exact hne (List.getLast?_eq_none_iff.mp hnone)
  · intro lastSentence h hlast
    unfold processChunkStep
    simp only [h, if_true, hlast]

/-- Claim C2 amended-claim witness: the hypotheses of `C2_stream_step` hold
and the conclusion evaluates on the chunk `"Hi. Bye"`. -/
theorem C2_stream_step_witness :
    (([] ++ "Hi. Bye".toList).any sentenceTerminatorHit = true) ∧
    ((split_into_sentences ([] ++ "Hi. Bye".toList)).getLast? = some ("Bye".toList)) ∧
    processChunkStep [] ("Hi. Bye".toList) = (["Hi.".toList, "Bye".toList], []) := by
  refine ⟨by decide, by decide, ?_⟩
  have h := (C2_stream_step [] ("Hi. Bye".toList)).2.2 ("Bye".toList)
    (by decide) (by decide)
  exact h.trans (by decide)

/-! ## Sessions, tasks, queues (`session.py`) -/

/-- An `asyncio.Task` as observed by the session code: whether it has already
completed, and whether cancellation has been requested on it. -/
structure PyTask where
  done : Bool
  cancelled : Bool
deriving DecidableEq

/-- `task.cancel()`. -/
def PyTask.cancel (t : PyTask) : PyTask := { t with cancelled := true }

/-- `SessionState` of `session.py`: flags, the three pipeline queues, the task
handles, and the idle-reaping timestamp. -/
structure SessionState where
  session_id : List Char
  last_activity : Nat
  interrupt_requested : Bool
  is_processing_llm : Bool
  is_tts_active : Bool
  asr_queue : List (List Char)
  llm_queue : List (List Char)
  tts_queue : List (List Char)
  pipeline_tasks : List PyTask
  current_llm_task : Option PyTask
  current_tts_task : Option PyTask
deriving DecidableEq

/-- `SessionState.__init__` at wall-clock time `now`. -/
def SessionState.init (sid : List Char) (now : Nat) : SessionState :=
  { session_id := sid, last_activity := now, interrupt_requested := false,
    is_processing_llm := false, is_tts_active := false,
    asr_queue := [], llm_queue := [], tts_queue := [],
    pipeline_tasks := [], current_llm_task := none, current_tts_task := none }

/-- `SessionState.is_interrupted`. -/
def SessionState.is_interrupted (s : SessionState) : Bool := s.interrupt_requested

/-- `SessionState.update_activity` at time `now`. -/
def SessionState.update_activity (s : SessionState) (now : Nat) : SessionState :=
  { s with last_activity := now }

/-- `SessionState.is_inactive`: `(time.time() - self.last_activity) > timeout`. -/
def SessionState.is_inactive (s : SessionState) (now timeout : Nat) : Bool :=
  decide (timeout < now - s.last_activity)

/-- Drop a running current-task handle: `task.cancel(); setattr(self, attr,
None)` is executed only when the task exists and is not done, so a handle to
an already-completed task survives. -/
def clearRunningTask : Option PyTask → Option PyTask
  | none => none
  | some t => if t.done then some t else none

/-- `SessionState._cancel_pipeline_tasks`: cancel the running workers and
clear the list; cancel-and-drop the running current LLM/TTS tasks; clear all
three queues (`_clear_queues` drains `qsize()` items from each). -/
def SessionState.cancel_pipeline_tasks (s : SessionState) : SessionState :=
  { s with
    pipeline_tasks := [],
    current_llm_task := clearRunningTask s.current_llm_task,
    current_tts_task := clearRunningTask s.current_tts_task,
    asr_queue := [], llm_queue := [], tts_queue := [] }

/-- `SessionState.request_interrupt`: set the flag, then
`_cancel_pipeline_tasks`. -/
def SessionState.request_interrupt (s : SessionState) : SessionState :=
  SessionState.cancel_pipeline_tasks { s with interrupt_requested := true }

/-! ## Stage A: the ASR-out worker (`websocket/pipeline.py`) -/

/-- Observable actions of one `_process_asr_queue` iteration, in program
order. -/
inductive PipelineEvent
  | sendTtsStop
  | cancelTtsTask
  | dequeueTts (sentence : List Char)
  | enqueueLlm (text : List Char)
deriving DecidableEq

/-- One iteration of `PipelineHandler._process_asr_queue` applied to the
dequeued final transcript `asr_result`: send `tts_stop` to the client; cancel
the current TTS task when it exists and is not done; drain the TTS queue;
finally put the transcript on the LLM queue.  Returns the new session state
and the ordered event trace. -/
def process_asr_item (s : SessionState) (asr_result : List Char) :
    SessionState × List PipelineEvent :=
  let cancelTrace :=
    match s.current_tts_task with
    | some t => if t.done then [] else [PipelineEvent.cancelTtsTask]
    | none => []
  let s1 :=
    match s.current_tts_task with
    | some t => if t.done then s else { s with current_tts_task := some t.cancel }
    | none => s
  let s2 := { s1 with tts_queue := [] }
  let s3 := { s2 with llm_queue := s2.llm_queue ++ [asr_result] }
  (s3,
    PipelineEvent.sendTtsStop ::
      (cancelTrace ++ s.tts_queue.map PipelineEvent.dequeueTts ++
        [PipelineEvent.enqueueLlm asr_result]))

/-! ## Stage C and the per-sentence TTS task (`websocket/pipeline.py`) -/

/-- Control messages `_synthesize_speech` can send over the websocket. -/
inductive TtsMsg
  | ttsStart
  | ttsEnd
  | ttsStop
deriving DecidableEq

/-- How one run of `_synthesize_speech` exits.  Its `await` points are
numbered: 0 = `send_json(tts_start)`, 1 = `synthesize_text`,
2 = `send_json(tts_end)`.  `cancelledAt k` means `asyncio.CancelledError` was
raised at await point `k` (so the sends before point `k` were delivered);
`synthFailed` means `synthesize_text` raised an ordinary exception. -/
inductive SynthExit
  | success
  | synthFailed
  | cancelledAt (k : Fin 3)
deriving DecidableEq

/-- Result of one `_synthesize_speech` run: the control messages delivered to
the client, the `is_tts_active` flag afterwards, and whether the
`tts_completion_event` is set afterwards (the `finally` block always both
clears the flag and sets the event). -/
structure SynthResult where
  msgs : List TtsMsg
  is_tts_active_after : Bool
  completion_event_set : Bool
deriving DecidableEq

/-- `PipelineHandler._synthesize_speech` for one sentence.  `hasProcessor` is
the `if not self.tts_processor` guard; when it is false the task returns
early and the `finally` block still runs. -/
def synthesize_speech (hasProcessor : Bool) (e : SynthExit) : SynthResult :=
  if !hasProcessor then
    { msgs := [], is_tts_active_after := false, completion_event_set := true }
  else
    match e with
    | .success =>
        { msgs := [.ttsStart, .ttsEnd],
          is_tts_active_after := false, completion_event_set := true }
    | .synthFailed =>
        { msgs := [.ttsStart],
          is_tts_active_after := false, completion_event_set := true }
    | .cancelledAt k =>
        { msgs := (if 1 ≤ (k : Nat) then [TtsMsg.ttsStart] else []) ++ [.ttsStop],
          is_tts_active_after := false, completion_event_set := true }

/-! ### Claim C3 -/

lemma enqueue_not_mem_dequeues (q : List (List Char)) (t : List Char) :
    PipelineEvent.enqueueLlm t ∉ q.map PipelineEvent.dequeueTts := by
  simp [List.mem_map]

lemma getLast?_cons_concat {α : Type} (a x : α) (l : List α) :
    (a :: (l ++ [x])).getLast? = some x := by
  rw [← List.cons_append, List.getLast?_concat]

/-- Claim C3: for every final transcript dequeued by the ASR-out worker, the
iteration first emits `tts_stop`, cancels the current TTS task exactly when
one is running, drains the TTS queue, and only then — as the last action —
enqueues the transcript on the LLM queue; afterwards the TTS queue is empty
and the LLM queue has the transcript appended. -/
theorem C3_asr_stage_supersede (s : SessionState) (t : List Char) :
    (process_asr_item s t).2.head? = some PipelineEvent.sendTtsStop ∧
    (process_asr_item s t).2.getLast? = some (PipelineEvent.enqueueLlm t) ∧
    (process_asr_item s t).2.count (PipelineEvent.enqueueLlm t) = 1 ∧
    (PipelineEvent.cancelTtsTask ∈ (process_asr_item s t).2 ↔
      ∃ tk, s.current_tts_task = some tk ∧ tk.done = false) ∧
    (process_asr_item s t).1.tts_queue = [] ∧
    (process_asr_item s t).1.llm_queue = s.llm_queue ++ [t] := by
  have hnot := enqueue_not_mem_dequeues s.tts_queue t
  rcases hcur : s.current_tts_task with _ | tk
  · refine ⟨rfl, ?_, ?_, ?_, ?_, ?_⟩ <;>
      simp [process_asr_item, hcur, getLast?_cons_concat,
        List.count_append, List.count_cons, List.count_eq_zero.mpr hnot,
        List.mem_append]
  · by_cases hdone : tk.done
    · refine ⟨rfl, ?_, ?_, ?_, ?_, ?_⟩ <;>
        simp [process_asr_item, hcur, hdone, getLast?_cons_concat,
          List.count_append, List.count_cons, List.count_eq_zero.mpr hnot,
          List.mem_append]
    · refine ⟨rfl, ?_, ?_, ?_, ?_, ?_⟩ <;>
        simp [process_asr_item, hcur, hdone, getLast?_cons_concat,
          List.count_append, List.count_cons, List.count_eq_zero.mpr hnot,
          List.mem_append]

/-! ### Claim C4 -/

/-- Claim C4: on every exit path of the per-sentence TTS task the completion
signal is re-armed and `is_tts_active` is cleared; a cancelled run (the task
has a synthesizer, so it has await points) delivers exactly one `tts_stop`
and never `tts_end`; a successful run delivers exactly one `tts_end`. -/
theorem C4_synth_exit_paths (hasProcessor : Bool) (e : SynthExit) :
    (synthesize_speech hasProcessor e).completion_event_set = true ∧
    (synthesize_speech hasProcessor e).is_tts_active_after = false ∧
    (∀ k, hasProcessor = true → e = SynthExit.cancelledAt k →
      (synthesize_speech hasProcessor e).msgs.count TtsMsg.ttsStop = 1 ∧
        TtsMsg.ttsEnd ∉ (synthesize_speech hasProcessor e).msgs) ∧
    (hasProcessor = true → e = SynthExit.success →
      (synthesize_speech hasProcessor e).msgs.count TtsMsg.ttsEnd = 1 ∧
        TtsMsg.ttsStop ∉ (synthesize_speech hasProcessor e).msgs) := by
  rcases e with _ | _ | k
  · rcases hasProcessor <;> simp [synthesize_speech]
  · rcases hasProcessor <;> simp [synthesize_speech]
  · rcases hasProcessor <;> fin_cases k <;> simp [synthesize_speech]

/-- Claim C4 witness: the cancellation and success clauses of
`C4_synth_exit_paths` instantiated at a synthesizing task cancelled during
`synthesize_text`, and at a successful one. -/
theorem C4_synth_exit_paths_witness :
    ((synthesize_speech true (SynthExit.cancelledAt 1)).msgs.count TtsMsg.ttsStop = 1 ∧
      TtsMsg.ttsEnd ∉ (synthesize_speech true (SynthExit.cancelledAt 1)).msgs) ∧
    ((synthesize_speech true SynthExit.success).msgs.count TtsMsg.ttsEnd = 1 ∧
      TtsMsg.ttsStop ∉ (synthesize_speech true SynthExit.success).msgs) :=
  ⟨(C4_synth_exit_paths true (SynthExit.cancelledAt 1)).2.2.1 1 rfl rfl,
    (C4_synth_exit_paths true SynthExit.success).2.2.2 rfl rfl⟩

/-! ### Claim C8 -/

/-- A task handle that has already completed. -/
def c8DoneTask : PyTask := { done := true, cancelled := false }

/-- A session whose current LLM task has already finished but whose handle
was never cleared. -/
def c8Session : SessionState :=
  { SessionState.init ("sess-1".toList) 0 with
      current_llm_task := some c8DoneTask,
      tts_queue := ["pending sentence".toList] }

/-- Claim C8 counterexample: after `request_interrupt`, `current_llm_task` is
claimed to be `None`; but when the handle refers to an already-done task the
code skips both the `cancel()` and the `setattr(..., None)`, so the handle
survives. -/
theorem C8_counterexample :
    (c8Session.request_interrupt).current_llm_task = some c8DoneTask ∧
    (c8Session.request_interrupt).current_llm_task ≠ none := by
  refine ⟨by decide, by decide⟩

lemma clearRunningTask_idem (o : Option PyTask) :
    clearRunningTask (clearRunningTask o) = clearRunningTask o := by
  rcases o with _ | t
  · rfl
  · by_cases h : t.done <;> simp [clearRunningTask, h]

/-! ## Voice-activity detection (`utils/audio.py`) -/

/-- A little-endian signed 16-bit integer from two bytes
(`int.from_bytes(..., "little", signed=True)`). -/
def int16OfLe (lo hi : Nat) : Int :=
  let u := lo % 256 + 256 * (hi % 256)
  if u < 32768 then (u : Int) else (u : Int) - 65536

/-- The PCM samples `VoiceActivityDetector.detect` parses: sample `i` exists
for `i < maxSamples` whenever byte `2*i+1` is inside the chunk. -/
def parseSamples (chunk : List Nat) (maxSamples : Nat) : List Int :=
  (List.range maxSamples).filterMap (fun i =>
    match chunk[2 * i]?, chunk[2 * i + 1]? with
    | some lo, some hi => some (int16OfLe lo hi)
    | _, _ => none)

/-- The mutable counters of `VoiceActivityDetector` (`reset_interval` is the
constant 20). -/
structure VADState where
  frame_count : Nat
  voice_frames : Nat
deriving DecidableEq

/-- The per-packet energy test of `detect`: mean absolute amplitude of the
first up-to-50 samples, normalised by `32768`, compared against the
threshold.  The source computes `sum(|s|)/len/32768 > threshold`; the
comparison is expressed here by exact cross-multiplication over the integers
so that it is kernel-computable (`vadPacketVoiced_eq_energy` below shows it
equals the division form). -/
def vadPacketVoiced (threshold : ℚ) (chunk : List Nat) : Bool :=
  let samples := parseSamples chunk (min 50 (chunk.length / 2))
  if samples.isEmpty then false
  else
    decide (threshold.num * ((samples.length : Int) * 32768) <
      ((samples.map Int.natAbs).sum : Int) * (threshold.den : Int))

/-- The normalised energy of a packet as the source writes it. -/
def vadNormalizedEnergy (chunk : List Nat) : ℚ :=
  let samples := parseSamples chunk (min 50 (chunk.length / 2))
  (((samples.map Int.natAbs).sum : ℚ) / (samples.length : ℚ)) / 32768

/-- `VoiceActivityDetector.detect`: packets shorter than 10 bytes are
rejected before any counter moves; otherwise the frame counter advances and
both counters reset once it exceeds 20; then the energy test classifies the
packet applying a voiced bump to the (possibly reset) counters. -/
def vadDetect (threshold : ℚ) (st : VADState) (chunk : List Nat) :
    Bool × VADState :=
  if chunk.length < 10 then (false, st)
  else
    let st1 : VADState := ⟨st.frame_count + 1, st.voice_frames⟩
    let st2 := if 20 < st1.frame_count then (⟨0, 0⟩ : VADState) else st1
    if vadPacketVoiced threshold chunk then
      (true, ⟨st2.frame_count, st2.voice_frames + 1⟩)
    else
      (false, st2)

/-- `VoiceActivityDetector.has_continuous_voice`:
`voice_frames > reset_interval * 0.3` with `reset_interval = 20`. -/
def has_continuous_voice (st : VADState) : Bool :=
  decide ((st.voice_frames : ℚ) > 20 * (3 / 10))

/-- Feed a packet sequence through a freshly constructed detector. -/
def runVAD (threshold : ℚ) (packets : List (List Nat)) : VADState :=
  packets.foldl (fun st p => (vadDetect threshold st p).2) ⟨0, 0⟩

/-- The default energy threshold `0.05`, as the exact rational `1/20`. -/
def vadDefaultThreshold : ℚ := ⟨1, 20, by decide, Nat.coprime_one_left 20⟩

/-- A 10-byte packet of five maximal samples (`0x7FFF`, little-endian). -/
def vadLoudPacket : List Nat := [255, 127, 255, 127, 255, 127, 255, 127, 255, 127]

example : vadPacketVoiced vadDefaultThreshold vadLoudPacket = true := by decide

example : (runVAD vadDefaultThreshold (List.replicate 2 vadLoudPacket)) = ⟨2, 2⟩ := by
  decide

/-! ### Claim C5 -/

/-- Claim C5 counterexample: after 41 consecutive loud packets the voiced
counter reads 21 and continuous voice is asserted.  Under the claim — a
rolling count over a window of 20 packets that resets after every 20th
packet — the count could never exceed 20, and at packet 41 a fresh window
would have just begun with a single voiced packet.  The reset actually fires
while processing packets 21, 42, …, and the resetting packet is itself still
counted, so every window after the first spans 21 packets. -/
theorem C5_counterexample :
    (runVAD vadDefaultThreshold (List.replicate 41 vadLoudPacket)).voice_frames = 21 ∧
    has_continuous_voice (runVAD vadDefaultThreshold (List.replicate 41 vadLoudPacket)) =
      true := by
  constructor
  · decide
  · show decide _ = true
    rw [decide_eq_true_iff]
    have : (runVAD vadDefaultThreshold (List.replicate 41 vadLoudPacket)).voice_frames
        = 21 := by decide
    rw [this]
    norm_num

lemma parseSamples_length_of_lt (chunk : List Nat) (m : Nat)
    (h : ∀ i < m, 2 * i + 1 < chunk.length) :
    (parseSamples chunk m).length = m := by
  induction m with
  | zero => rfl
  | succ k ih =>
    have hk : 2 * k + 1 < chunk.length := h k (Nat.lt_succ_self k)
    have hk0 : 2 * k < chunk.length := by omega
    unfold parseSamples
    rw [List.range_succ, List.filterMap_append]
    have hlast : (List.filterMap (fun i =>
        match chunk[2 * i]?, chunk[2 * i + 1]? with
        | some lo, some hi => some (int16OfLe lo hi)
        | _, _ => none) [k]).length = 1 := by
      have hlo : chunk[2 * k]? = some (chunk.get ⟨2 * k, hk0⟩) :=
        List.getElem?_eq_getElem hk0
      have hhi : chunk[2 * k + 1]? = some (chunk.get ⟨2 * k + 1, hk⟩) :=
        List.getElem?_eq_getElem hk
      simp [List.filterMap, hlo, hhi]
    rw [List.length_append, hlast]
    have := ih (fun i hi => h i (Nat.lt_succ_of_lt hi))
    unfold parseSamples at this
    rw [this]

lemma parseSamples_fifty_length (chunk : List Nat) :
    (parseSamples chunk (min 50 (chunk.length / 2))).length =
      min 50 (chunk.length / 2) := by
  apply parseSamples_length_of_lt
  intro i hi
  have : i < chunk.length / 2 := lt_of_lt_of_le hi (min_le_right _ _)
  omega

/-- The integer comparison in `vadPacketVoiced` is the source's
`sum(|s|)/len/32768 > threshold` in exact arithmetic. -/
lemma vadPacketVoiced_eq_energy (threshold : ℚ) (chunk : List Nat)
    (h : (parseSamples chunk (min 50 (chunk.length / 2))).length ≠ 0) :
    vadPacketVoiced threshold chunk =
      decide (vadNormalizedEnergy chunk > threshold) := by
  unfold vadPacketVoiced vadNormalizedEnergy
  have hne : parseSamples chunk (min 50 (chunk.length / 2)) ≠ [] := by
    intro hnil
    exact h (by rw [hnil]; rfl)
  have hemp : (parseSamples chunk (min 50 (chunk.length / 2))).isEmpty = false := by
    rcases hx : parseSamples chunk (min 50 (chunk.length / 2)) with _ | ⟨a, l⟩
    · exact absurd hx hne
    · rfl
  simp only [hemp, Bool.false_eq_true, if_false]
  rw [decide_eq_decide]
  have hn : 0 < (parseSamples chunk (min 50 (chunk.length / 2))).length :=
    Nat.pos_of_ne_zero h
  have hnq : (0 : ℚ) < ((parseSamples chunk (min 50 (chunk.length / 2))).length : ℚ) := by
    exact_mod_cast hn
  set S : ℕ := (List.map Int.natAbs (parseSamples chunk (min 50 (chunk.length / 2)))).sum
    with hSdef
  set n : ℕ := (parseSamples chunk (min 50 (chunk.length / 2))).length with hndef
  set N : ℤ := threshold.num with hNdef
  set D : ℕ := threshold.den with hDdef
  have hDpos : (0 : ℚ) < (D : ℚ) := by exact_mod_cast threshold.pos
  have hT : threshold = (N : ℚ) / (D : ℚ) := (Rat.num_div_den threshold).symm
  rw [gt_iff_lt, div_div, lt_div_iff₀ (by positivity), hT, div_mul_eq_mul_div,
    div_lt_iff₀ hDpos]
  constructor <;> intro h' <;> exact_mod_cast h'

/-- Frame counter after `n` voiced packets from a fresh detector. -/
def vadFrameCountAfter (n : Nat) : Nat :=
  if n ≤ 20 then n else (n - 21) % 21

/-- Voiced counter after `n` voiced packets from a fresh detector: the first
window spans 20 packets, every later one spans 21 because the packet whose
arrival resets the counters is itself still classified and counted. -/
def vadVoiceCountAfter (n : Nat) : Nat :=
  if n ≤ 20 then n else (n - 21) % 21 + 1

lemma runVAD_replicate_voiced (threshold : ℚ) (pkt : List Nat)
    (h10 : 10 ≤ pkt.length) (hv : vadPacketVoiced threshold pkt = true) :
    ∀ n, runVAD threshold (List.replicate n pkt) =
      ⟨vadFrameCountAfter n, vadVoiceCountAfter n⟩ := by
  intro n
  induction n with
  | zero => simp [runVAD, vadFrameCountAfter, vadVoiceCountAfter]
  | succ m ih =>
    have hstep : runVAD threshold (List.replicate (m + 1) pkt) =
        (vadDetect threshold (runVAD threshold (List.replicate m pkt)) pkt).2 := by
      rw [List.replicate_succ']
      simp [runVAD, List.foldl_append]
    rw [hstep, ih]
    have hlt : ¬ pkt.length < 10 := by omega
    simp only [vadDetect, if_neg hlt, hv, if_true]
    unfold vadFrameCountAfter vadVoiceCountAfter
    split_ifs <;> simp_all [VADState.mk.injEq] <;> omega

/-- Claim C5 (amended): packets shorter than 10 bytes are classified unvoiced
and advance no counter; otherwise a packet is voiced exactly when its mean
absolute sample amplitude divided by 32768 exceeds the threshold; the
counters reset while processing the packet that takes the frame counter past
20, that packet being counted in the fresh window — first window 20 packets,
each later one 21; continuous voice is asserted exactly when the voiced
counter exceeds 6. -/
theorem C5_vad_behavior (threshold : ℚ) (pkt : List Nat)
    (h10 : 10 ≤ pkt.length) (hv : vadPacketVoiced threshold pkt = true) :
    (∀ st chunk, chunk.length < 10 → vadDetect threshold st chunk = (false, st)) ∧
    (∀ st chunk, 10 ≤ chunk.length →
      (vadDetect threshold st chunk).1 = vadPacketVoiced threshold chunk) ∧
    (∀ chunk, 10 ≤ chunk.length →
      vadPacketVoiced threshold chunk =
        decide (vadNormalizedEnergy chunk > threshold)) ∧
    (∀ n, runVAD threshold (List.replicate n pkt) =
      ⟨vadFrameCountAfter n, vadVoiceCountAfter n⟩) ∧
    (∀ st, has_continuous_voice st = decide (6 < st.voice_frames)) := by
  refine ⟨?_, ?_, ?_, runVAD_replicate_voiced threshold pkt h10 hv, ?_⟩
  · intro st chunk hshort
    simp [vadDetect, hshort]
  · intro st chunk hlen
    have hlt : ¬ chunk.length < 10 := by omega
    simp only [vadDetect, if_neg hlt]
    rcases hvc : vadPacketVoiced threshold chunk <;> simp [hvc]
  · intro chunk hlen
    apply vadPacketVoiced_eq_energy
    rw [parseSamples_fifty_length chunk]
    have : 5 ≤ chunk.length / 2 := by omega
    omega
  · intro st
    unfold has_continuous_voice
    rw [decide_eq_decide]
    have : (20 : ℚ) * (3 / 10) = 6 := by norm_num
    rw [this, gt_iff_lt]
    exact_mod_cast Iff.rfl

/-- Claim C5 amended-claim witness: the default threshold and a loud 10-byte
packet satisfy the hypotheses, and after 21 such packets the counters have
just been reset and recounted to one voiced packet. -/
theorem C5_vad_behavior_witness :
    10 ≤ vadLoudPacket.length ∧
    vadPacketVoiced vadDefaultThreshold vadLoudPacket = true ∧
    runVAD vadDefaultThreshold (List.replicate 21 vadLoudPacket) =
      ⟨vadFrameCountAfter 21, vadVoiceCountAfter 21⟩ ∧
    vadFrameCountAfter 21 = 0 ∧ vadVoiceCountAfter 21 = 1 := by
  refine ⟨by decide, by decide, ?_, by decide, by decide⟩
  exact (C5_vad_behavior vadDefaultThreshold vadLoudPacket
    (by decide) (by decide)).2.2.2.1 21

/-- Claim C8 (amended): after `request_interrupt` the interrupt flag is set,
the pipeline-task list and all three queues are empty, and each current-task
handle is dropped exactly when the task was still running — a handle to an
already-done task is left in place; the operation is idempotent. -/
theorem C8_request_interrupt (s : SessionState) :
    (s.request_interrupt).interrupt_requested = true ∧
    (s.request_interrupt).is_interrupted = true ∧
    (s.request_interrupt).pipeline_tasks = [] ∧
    (s.request_interrupt).asr_queue = [] ∧
    (s.request_interrupt).llm_queue = [] ∧
    (s.request_interrupt).tts_queue = [] ∧
    (s.request_interrupt).current_llm_task = clearRunningTask s.current_llm_task ∧
    (s.request_interrupt).current_tts_task = clearRunningTask s.current_tts_task ∧
    (s.request_interrupt).request_interrupt = s.request_interrupt := by
  refine ⟨rfl, rfl, rfl, rfl, rfl, rfl, rfl, rfl, ?_⟩
  simp [SessionState.request_interrupt, SessionState.cancel_pipeline_tasks,
    clearRunningTask_idem]

/-! ## MiniMax TTS PCM validation (`services/tts/minimax_tts.py`) -/

/-- The signed sample at byte offset `j`
(`struct.unpack("<h", decoded_audio[j:j+2])`). -/
def int16At (bytes : List Nat) (j : Nat) : Int :=
  int16OfLe (bytes.getD j 0) (bytes.getD (j + 1) 0)

/-- The byte offsets scanned by the validator:
`range(0, min(20, len(decoded_audio)), 2)`. -/
def pcmCheckOffsets (len : Nat) : List Nat :=
  (List.range ((min 20 len + 1) / 2)).map (fun i => 2 * i)

/-- The validation loop: a sample is counted invalid when
`abs(sample) > 32767`; the loop fails once more than two invalid samples are
seen (and breaks early at that point). -/
def checkPcmLoop (bytes : List Nat) : List Nat → Nat → Bool
  | [], _ => true
  | j :: rest, invalid =>
    if 32767 < (int16At bytes j).natAbs then
      if 2 < invalid + 1 then false
      else checkPcmLoop bytes rest (invalid + 1)
    else checkPcmLoop bytes rest invalid

/-- `valid_pcm` computed for a decoded block. -/
def validPcm (bytes : List Nat) : Bool :=
  checkPcmLoop bytes (pcmCheckOffsets bytes.length) 0

/-- Odd-length decoded audio is truncated by one byte
(`decoded_audio = decoded_audio[:-1]`), not dropped. -/
def pcmTruncate (decoded : List Nat) : List Nat :=
  if decoded.length % 2 ≠ 0 then decoded.dropLast else decoded

/-- Handling of one decoded hex audio block inside
`_process_single_sentence`: empty blocks are skipped, odd-length blocks are
truncated, and the block is enqueued for sending exactly when it is still
non-empty and `valid_pcm` holds; otherwise it is dropped with a warning. -/
def process_audio_block (decoded : List Nat) : Option (List Nat) :=
  if decoded.isEmpty then none
  else
    let d := pcmTruncate decoded
    if 0 < d.length ∧ validPcm d = true then some d else none

example : process_audio_block [0, 0, 0] = some [0, 0] := by decide

example : process_audio_block [0, 128, 0, 128, 0, 128] = none := by decide

/-! ### Claim C6 -/

/-- Claim C6 counterexample: the claim says a decoded block whose byte length
is odd fails validation and is dropped; the code instead truncates the last
byte and emits the rest.  The claim also says a block is dropped only when
fewer than 90 % of its first samples lie in `[-32768, 32767]`; every decoded
16-bit sample lies in that range, yet the block of six bytes decoding to
three `-32768` samples is dropped. -/
theorem C6_counterexample :
    (process_audio_block [0, 0, 0] = some [0, 0] ∧ [0, 0, 0].length % 2 = 1) ∧
    (process_audio_block [0, 128, 0, 128, 0, 128] = none ∧
      ∀ j ∈ pcmCheckOffsets 6, -32768 ≤ int16At [0, 128, 0, 128, 0, 128] j ∧
        int16At [0, 128, 0, 128, 0, 128] j ≤ 32767) := by
  refine ⟨⟨by decide, by decide⟩, by decide, by decide⟩

lemma int16OfLe_bounds (lo hi : Nat) :
    -32768 ≤ int16OfLe lo hi ∧ int16OfLe lo hi ≤ 32767 := by
  unfold int16OfLe
  have h1 : lo % 256 < 256 := Nat.mod_lt _ (by omega)
  have h2 : hi % 256 < 256 := Nat.mod_lt _ (by omega)
  dsimp only
  split_ifs with h <;> omega

lemma int16OfLe_invalid_iff (lo hi : Nat) :
    (32767 < (int16OfLe lo hi).natAbs) ↔ int16OfLe lo hi = -32768 := by
  have hb := int16OfLe_bounds lo hi
  omega

lemma int16At_invalid_iff (bytes : List Nat) (j : Nat) :
    (32767 < (int16At bytes j).natAbs) ↔ int16At bytes j = -32768 := by
  unfold int16At
  exact int16OfLe_invalid_iff _ _

/-- The early-break loop counts: it succeeds exactly when at most two scanned
samples decode to `-32768`. -/
lemma checkPcmLoop_eq_count (bytes : List Nat) :
    ∀ (js : List Nat) (invalid : Nat), invalid ≤ 2 →
      checkPcmLoop bytes js invalid =
        decide (invalid + js.countP (fun j => decide (int16At bytes j = -32768)) ≤ 2) := by
  intro js
  induction js with
  | nil => intro invalid h; simp [checkPcmLoop, h]
  | cons j rest ih =>
    intro invalid h
    rw [checkPcmLoop]
    by_cases hj : 32767 < (int16At bytes j).natAbs
    · have hj2 : int16At bytes j = -32768 := (int16At_invalid_iff bytes j).mp hj
      have hcount :
          (j :: rest).countP (fun i => decide (int16At bytes i = -32768)) =
            rest.countP (fun i => decide (int16At bytes i = -32768)) + 1 := by
        rw [List.countP_cons]
        simp [hj2]
      rw [if_pos hj, hcount]
      by_cases hb : 2 < invalid + 1
      · rw [if_pos hb]
        symm
        rw [decide_eq_false_iff_not]
        omega
      · rw [if_neg hb, ih (invalid + 1) (by omega), decide_eq_decide]
        omega
    · have hj2 : ¬ int16At bytes j = -32768 := by
        rw [← int16At_invalid_iff bytes j]
        exact hj
      have hcount :
          (j :: rest).countP (fun i => decide (int16At bytes i = -32768)) =
            rest.countP (fun i => decide (int16At bytes i = -32768)) := by
        rw [List.countP_cons]
        simp [hj2]
      rw [if_neg hj, hcount, ih invalid h]

lemma pcmTruncate_even (decoded : List Nat) :
    (pcmTruncate decoded).length % 2 = 0 := by
  unfold pcmTruncate
  split_ifs with h
  · rw [List.length_dropLast]; omega
  · omega

/-- Claim C6 (amended): an odd-length decoded block is truncated by one byte
rather than dropped; the (possibly truncated) block — always of even length —
is emitted exactly when it is non-empty and at most two of its first up-to-10
little-endian samples equal `-32768`, the only 16-bit value whose absolute
value exceeds 32767; otherwise it is dropped with a warning. -/
theorem C6_pcm_validation (decoded : List Nat) (hne : decoded ≠ []) :
    process_audio_block decoded =
      (if 0 < (pcmTruncate decoded).length ∧
          (pcmCheckOffsets (pcmTruncate decoded).length).countP
            (fun j => decide (int16At (pcmTruncate decoded) j = -32768)) ≤ 2
        then some (pcmTruncate decoded) else none) ∧
    (pcmTruncate decoded).length % 2 = 0 ∧
    (∀ out, process_audio_block decoded = some out → out = pcmTruncate decoded) := by
  have hemp : decoded.isEmpty = false := by
    rcases decoded with _ | ⟨a, l⟩
    · exact absurd rfl hne
    · rfl
  have hloop := checkPcmLoop_eq_count (pcmTruncate decoded)
    (pcmCheckOffsets (pcmTruncate decoded).length) 0 (by omega)
  refine ⟨?_, pcmTruncate_even decoded, ?_⟩
  · unfold process_audio_block validPcm
    rw [hemp]
    simp only [Bool.false_eq_true, if_false, hloop]
    simp only [decide_eq_true_eq, Nat.zero_add]
  · intro out hout
    unfold process_audio_block at hout
    rw [hemp] at hout
    simp only [Bool.false_eq_true, if_false] at hout
    split_ifs at hout with hcond
    exact (Option.some.inj hout).symm

/-- Claim C6 amended-claim witness: a seven-byte block decoding to three
`-32768` samples plus a stray byte is truncated to six bytes and then dropped
because all three scanned samples are invalid. -/
theorem C6_pcm_validation_witness :
    ([0, 128, 0, 128, 0, 128, 9] : List Nat) ≠ [] ∧
    pcmTruncate [0, 128, 0, 128, 0, 128, 9] = [0, 128, 0, 128, 0, 128] ∧
    process_audio_block [0, 128, 0, 128, 0, 128, 9] = none := by
  refine ⟨by decide, by decide, ?_⟩
  exact (C6_pcm_validation [0, 128, 0, 128, 0, 128, 9] (by decide)).1.trans (by decide)

/-! ## Inbound command dispatch (`websocket/handler.py`) -/

/-- An inbound text frame as `_handle_text_command` sees it after
`json.loads`: either the parse raised (malformed JSON) or it produced an
object whose `type` field is `ty` (`none` when the field is missing). -/
inductive ClientCommand
  | malformed
  | cmd (ty : Option (List Char))
deriving DecidableEq

/-- Messages `_handle_text_command` and its sub-handlers send. -/
inductive HandlerMsg
  | errorMsg
  | stopAcknowledged
  | interruptAcknowledged
deriving DecidableEq

/-- Side effects the sub-handlers perform. -/
inductive HandlerAction
  | stopRecognition
  | startRecognition
  | resetAsr
  | requestInterrupt
deriving DecidableEq

/-- `WebSocketHandler._handle_text_command`: a parse failure is caught by the
`except` clause, which emits an `error` message and returns (the message loop
continues); a parsed command dispatches on `type` through an
`if`/`elif` chain with NO `else` branch, so an unrecognised `type` falls
through silently; sub-handler effects are listed in program order (the
`reset` path is modelled on its success branch). -/
def handle_text_command : ClientCommand → List HandlerMsg × List HandlerAction
  | .malformed => ([.errorMsg], [])
  | .cmd ty =>
    if ty = some ("stop".toList) then
      ([.stopAcknowledged], [.stopRecognition, .requestInterrupt])
    else if ty = some ("start".toList) then
      ([], [.startRecognition])
    else if ty = some ("reset".toList) then
      ([], [.stopRecognition, .resetAsr, .startRecognition])
    else if ty = some ("interrupt".toList) then
      ([.interruptAcknowledged], [.requestInterrupt])
    else
      ([], [])

/-! ### Claim C7 -/

/-- Claim C7 counterexample: the claim says a JSON command whose `type` is
not one of `start`/`stop`/`reset`/`interrupt` draws an `error` message; the
code's dispatch chain has no `else`, so the command `{"type": "foo"}` is
ignored: no message at all is sent and no action is taken. -/
theorem C7_counterexample :
    handle_text_command (ClientCommand.cmd (some ("foo".toList))) = ([], []) ∧
    HandlerMsg.errorMsg ∉
      (handle_text_command (ClientCommand.cmd (some ("foo".toList)))).1 := by
  refine ⟨by decide, by decide⟩

/-- Claim C7 (amended): malformed JSON draws an `error` message and the
handler returns normally, so the session continues; a JSON command whose
`type` is not one of the four known commands is silently ignored — no
message, no action — and the session likewise continues. -/
theorem C7_command_dispatch :
    handle_text_command ClientCommand.malformed = ([HandlerMsg.errorMsg], []) ∧
    (∀ ty, ty ≠ some ("stop".toList) → ty ≠ some ("start".toList) →
      ty ≠ some ("reset".toList) → ty ≠ some ("interrupt".toList) →
      handle_text_command (ClientCommand.cmd ty) = ([], [])) := by
  refine ⟨rfl, ?_⟩
  intro ty h1 h2 h3 h4
  show (if ty = some ("stop".toList) then
      ([HandlerMsg.stopAcknowledged],
        [HandlerAction.stopRecognition, HandlerAction.requestInterrupt])
    else if ty = some ("start".toList) then
      ([], [HandlerAction.startRecognition])
    else if ty = some ("reset".toList) then
      ([], [HandlerAction.stopRecognition, HandlerAction.resetAsr,
        HandlerAction.startRecognition])
    else if ty = some ("interrupt".toList) then
      ([HandlerMsg.interruptAcknowledged], [HandlerAction.requestInterrupt])
    else ([], [])) = ([], [])
  rw [if_neg h1, if_neg h2, if_neg h3, if_neg h4]

/-- Claim C7 amended-claim witness: the unknown command `{"type": "ping"}`
satisfies the hypotheses and is ignored. -/
theorem C7_command_dispatch_witness :
    handle_text_command (ClientCommand.cmd (some ("ping".toList))) = ([], []) :=
  C7_command_dispatch.2 (some ("ping".toList))
    (by decide) (by decide) (by decide) (by decide)

/-! ## The session registry and the idle reaper (`session.py`) -/

/-- The global `_sessions` dictionary, in insertion order. -/
abbrev Registry := List (List Char × SessionState)

/-- The create-if-absent half of `get_session`
(`_sessions[session_id] = SessionState(session_id)`). -/
def registerSession (now : Nat) (sid : List Char) (reg : Registry) : Registry :=
  if (reg.lookup sid).isSome then reg
  else reg ++ [(sid, SessionState.init sid now)]

/-- The refresh half of `get_session`
(`_sessions[session_id].update_activity()`). -/
def refreshSession (now : Nat) (sid : List Char) (reg : Registry) : Registry :=
  reg.map (fun p => if p.1 = sid then (p.1, p.2.update_activity now) else p)

/-- `get_session`: register a fresh state when the id is unknown, refresh
`last_activity`, return the refreshed session and the updated registry. -/
def get_session (now : Nat) (sid : List Char) (reg : Registry) :
    SessionState × Registry :=
  let reg2 := refreshSession now sid (registerSession now sid reg)
  ((reg2.lookup sid).getD (SessionState.init sid now), reg2)

/-- `remove_session`. -/
def remove_session (sid : List Char) (reg : Registry) : Registry :=
  reg.filter (fun p => !(p.1 == sid))

/-- One pass of the reaper loop in `cleanup_inactive_sessions`: the ids of
the sessions inactive at scan time are collected first; each is then looked
up again through `get_session` (to reach its TTS processor) — which
refreshes its `last_activity` — and removed unconditionally. -/
def cleanup_pass (now timeout : Nat) (reg : Registry) : Registry :=
  ((reg.filter (fun p => p.2.is_inactive now timeout)).map Prod.fst).foldl
    (fun r sid => remove_session sid (get_session now sid r).2) reg

/-! ### Registry lookup lemmas -/

lemma lookup_cons_self (k : List Char) (v : SessionState) (rest : Registry) :
    List.lookup k ((k, v) :: rest) = some v := by
  rw [List.lookup]
  have hb : (k == k) = true := by simp
  rw [hb]

lemma lookup_cons_ne {sid k : List Char} (h : sid ≠ k) (v : SessionState)
    (rest : Registry) :
    List.lookup sid ((k, v) :: rest) = List.lookup sid rest := by
  rw [List.lookup]
  have hb : (sid == k) = false := by simpa using h
  rw [hb]

lemma lookup_append (reg l2 : Registry) (sid : List Char) :
    (reg ++ l2).lookup sid =
      match reg.lookup sid with
      | some v => some v
      | none => l2.lookup sid := by
  induction reg with
  | nil => rfl
  | cons p rest ih =>
    rcases p with ⟨k, v⟩
    by_cases hk : sid = k
    · subst hk
      rw [List.cons_append, lookup_cons_self, lookup_cons_self]
    · rw [List.cons_append, lookup_cons_ne hk, lookup_cons_ne hk, ih]

lemma registerSession_lookup (now : Nat) (sid : List Char) (reg : Registry) :
    (registerSession now sid reg).lookup sid =
      some ((reg.lookup sid).getD (SessionState.init sid now)) := by
  unfold registerSession
  rcases h : reg.lookup sid with _ | v
  · simp only [Option.isSome_none, Bool.false_eq_true, if_false]
    rw [lookup_append, h]
    exact lookup_cons_self sid _ []
  · simp only [Option.isSome_some, if_true]
    rw [h]
    rfl

lemma registerSession_lookup_ne (now : Nat) (sid sid2 : List Char)
    (reg : Registry) (h : sid2 ≠ sid) :
    (registerSession now sid reg).lookup sid2 = reg.lookup sid2 := by
  unfold registerSession
  split_ifs
  · rfl
  · rw [lookup_append]
    rcases h2 : reg.lookup sid2 with _ | v
    · rw [lookup_cons_ne h]
      rfl
    · rfl

lemma refreshSession_cons (now : Nat) (sid : List Char)
    (p : List Char × SessionState) (rest : Registry) :
    refreshSession now sid (p :: rest) =
      (if p.1 = sid then (p.1, p.2.update_activity now) else p) ::
        refreshSession now sid rest := by
  rfl

lemma refreshSession_lookup (now : Nat) (sid : List Char) (reg : Registry) :
    (refreshSession now sid reg).lookup sid =
      (reg.lookup sid).map (fun st => st.update_activity now) := by
  induction reg with
  | nil => rfl
  | cons p rest ih =>
    rcases p with ⟨k, v⟩
    rw [refreshSession_cons]
    by_cases hk : k = sid
    · subst hk
      rw [if_pos rfl]
      rw [lookup_cons_self, lookup_cons_self]
      rfl
    · have hk2 : ¬ sid = k := fun hx => hk hx.symm
      rw [if_neg hk, lookup_cons_ne hk2, lookup_cons_ne hk2, ih]

lemma refreshSession_lookup_ne (now : Nat) (sid sid2 : List Char)
    (reg : Registry) (h : sid2 ≠ sid) :
    (refreshSession now sid reg).lookup sid2 = reg.lookup sid2 := by
  induction reg with
  | nil => rfl
  | cons p rest ih =>
    rcases p with ⟨k, v⟩
    rw [refreshSession_cons]
    by_cases hk : k = sid
    · subst hk
      have h2 : sid2 ≠ k := h
      rw [if_pos rfl, lookup_cons_ne h2, lookup_cons_ne h2, ih]
    · by_cases h2 : sid2 = k
      · subst h2
        rw [if_neg hk, lookup_cons_self, lookup_cons_self]
      · rw [if_neg hk, lookup_cons_ne h2, lookup_cons_ne h2, ih]

lemma get_session_snd_lookup (now : Nat) (sid : List Char) (reg : Registry) :
    ((get_session now sid reg).2).lookup sid =
      some (((reg.lookup sid).getD (SessionState.init sid now)).update_activity now) := by
  unfold get_session
  dsimp only
  rw [refreshSession_lookup, registerSession_lookup]
  rfl

lemma get_session_fst (now : Nat) (sid : List Char) (reg : Registry) :
    (get_session now sid reg).1 =
      ((reg.lookup sid).getD (SessionState.init sid now)).update_activity now := by
  unfold get_session
  dsimp only
  rw [refreshSession_lookup, registerSession_lookup]
  rfl

lemma get_session_lookup_ne (now : Nat) (sid sid2 : List Char) (reg : Registry)
    (h : sid2 ≠ sid) :
    ((get_session now sid reg).2).lookup sid2 = reg.lookup sid2 := by
  unfold get_session
  dsimp only
  rw [refreshSession_lookup_ne now sid sid2 _ h,
    registerSession_lookup_ne now sid sid2 reg h]

lemma remove_session_cons (sid : List Char) (p : List Char × SessionState)
    (rest : Registry) :
    remove_session sid (p :: rest) =
      if p.1 = sid then remove_session sid rest
      else p :: remove_session sid rest := by
  unfold remove_session
  rw [List.filter_cons]
  by_cases hp : p.1 = sid
  · have : (!(p.1 == sid)) = false := by simpa using hp
    rw [this, if_pos hp]
    simp
  · have : (!(p.1 == sid)) = true := by simpa using hp
    rw [this, if_neg hp]
    simp

lemma remove_session_lookup (sid sid2 : List Char) (reg : Registry) :
    (remove_session sid reg).lookup sid2 =
      if sid2 = sid then none else reg.lookup sid2 := by
  induction reg with
  | nil =>
    by_cases h : sid2 = sid
    · rw [if_pos h]; rfl
    · rw [if_neg h]; rfl
  | cons p rest ih =>
    rcases p with ⟨k, v⟩
    rw [remove_session_cons]
    by_cases hk : k = sid
    · rw [if_pos hk, ih]
      by_cases h2 : sid2 = sid
      · rw [if_pos h2, if_pos h2]
      · have h3 : sid2 ≠ k := fun hx => h2 (hx.trans hk)
        rw [if_neg h2, if_neg h2, lookup_cons_ne h3]
    · rw [if_neg hk]
      by_cases h2 : sid2 = k
      · subst h2
        have h3 : ¬ sid2 = sid := fun hx => hk (hx ▸ rfl)
        rw [lookup_cons_self, if_neg h3, lookup_cons_self]
      · rw [lookup_cons_ne h2, ih]
        by_cases h3 : sid2 = sid
        · rw [if_pos h3, if_pos h3]
        · rw [if_neg h3, if_neg h3, lookup_cons_ne h2]

lemma cleanup_fold_lookup (now : Nat) (L : List (List Char)) (reg : Registry)
    (sid : List Char) :
    (L.foldl (fun r s => remove_session s (get_session now s r).2) reg).lookup sid =
      if sid ∈ L then none else reg.lookup sid := by
  induction L generalizing reg with
  | nil => simp
  | cons s rest ih =>
    rw [List.foldl_cons, ih]
    by_cases hmem : sid ∈ rest
    · simp [hmem]
    · rw [if_neg hmem, remove_session_lookup]
      by_cases hs : sid = s
      · subst hs
        simp
      · rw [if_neg hs, get_session_lookup_ne now s sid reg hs]
        simp [List.mem_cons, hs, hmem]

lemma lookup_mem {reg : Registry} {sid : List Char} {v : SessionState}
    (h : reg.lookup sid = some v) : (sid, v) ∈ reg := by
  induction reg with
  | nil => exact absurd h (by simp)
  | cons p rest ih =>
    rcases p with ⟨k, w⟩
    by_cases hk : sid = k
    · subst hk
      rw [lookup_cons_self] at h
      cases Option.some.inj h
      exact List.mem_cons_self _ _
    · rw [lookup_cons_ne hk] at h
      exact List.mem_cons_of_mem _ (ih h)

lemma lookup_of_mem_nodup {reg : Registry}
    (hnd : (reg.map Prod.fst).Nodup) {sid : List Char} {v : SessionState}
    (h : (sid, v) ∈ reg) : reg.lookup sid = some v := by
  induction reg with
  | nil => exact absurd h (by simp)
  | cons p rest ih =>
    rcases p with ⟨k, w⟩
    rw [List.map_cons, List.nodup_cons] at hnd
    rcases List.mem_cons.mp h with heq | hmem
    · rw [Prod.mk.injEq] at heq
      rw [heq.1.symm] at *
      rw [lookup_cons_self, heq.2]
    · by_cases hk : sid = k
      · subst hk
        exact absurd (List.mem_map_of_mem Prod.fst hmem) hnd.1
      · rw [lookup_cons_ne hk]
        exact ih hnd.2 hmem

lemma mem_inactive_ids_iff (now timeout : Nat) (reg : Registry)
    (hnd : (reg.map Prod.fst).Nodup) (sid : List Char) (st : SessionState)
    (hl : reg.lookup sid = some st) :
    (sid ∈ (reg.filter (fun p => p.2.is_inactive now timeout)).map Prod.fst) ↔
      st.is_inactive now timeout = true := by
  constructor
  · intro h
    obtain ⟨p, hp, hfst⟩ := List.mem_map.mp h
    obtain ⟨hpin, hpact⟩ := List.mem_filter.mp hp
    rcases p with ⟨k, v⟩
    cases hfst
    have := lookup_of_mem_nodup hnd hpin
    rw [hl] at this
    cases Option.some.inj this
    exact hpact
  · intro h
    exact List.mem_map.mpr ⟨(sid, st),
      List.mem_filter.mpr ⟨lookup_mem hl, h⟩, rfl⟩

/-! ### Claim C9 -/

/-- The registry holding one session `"a"` last active at time 0. -/
def c9Registry : Registry := [("a".toList, SessionState.init ("a".toList) 0)]

/-- Claim C9 counterexample: at time 1000 with a 600-second timeout the
reaper removes session `"a"` even though its own `get_session` lookup has
just refreshed the session's `last_activity` to 1000 — at the moment of
removal the refreshed session is no longer inactive, so a lookup does NOT
postpone reaping when the reaper itself performs it. -/
theorem C9_counterexample :
    cleanup_pass 1000 600 c9Registry = [] ∧
    ((get_session 1000 ("a".toList) c9Registry).1).is_inactive 1000 600 = false ∧
    ((get_session 1000 ("a".toList) c9Registry).1).last_activity = 1000 := by
  refine ⟨by decide, by decide, by decide⟩

/-- Claim C9 (amended): `get_session` returns a session whose id is the
argument (given the registry invariant that each entry's state carries its
key), refreshes its `last_activity` to the current time, and leaves the
session registered; every call refreshes, including the reaper's own lookup.
But the reaper chooses its victims from a snapshot taken before those
lookups and removes them unconditionally, so after a reaper pass a session
is gone exactly when it was inactive at scan time — the reaper's own
refreshing lookup postpones nothing, while sessions active at scan time
survive untouched. -/
theorem C9_get_session_and_reaper :
    (∀ (now : Nat) (sid : List Char) (reg : Registry),
      (∀ p ∈ reg, p.2.session_id = p.1) →
      ((get_session now sid reg).1.session_id = sid ∧
        (get_session now sid reg).1.last_activity = now ∧
        ((get_session now sid reg).2).lookup sid = some (get_session now sid reg).1)) ∧
    (∀ (now timeout : Nat) (reg : Registry) (sid : List Char) (st : SessionState),
      (reg.map Prod.fst).Nodup →
      reg.lookup sid = some st →
      (cleanup_pass now timeout reg).lookup sid =
        if st.is_inactive now timeout = true then none else some st) := by
  constructor
  · intro now sid reg hwf
    refine ⟨?_, ?_, ?_⟩
    · rw [get_session_fst]
      rcases h : reg.lookup sid with _ | v
      · rfl
      · have hv := hwf (sid, v) (lookup_mem h)
        simpa [SessionState.update_activity] using hv
    · rw [get_session_fst]
      rfl
    · rw [get_session_snd_lookup, get_session_fst]
  · intro now timeout reg sid st hnd hl
    unfold cleanup_pass
    rw [cleanup_fold_lookup]
    by_cases hact : st.is_inactive now timeout = true
    · rw [if_pos ((mem_inactive_ids_iff now timeout reg hnd sid st hl).mpr hact),
        if_pos hact]
    · rw [if_neg (fun hmem =>
          hact ((mem_inactive_ids_iff now timeout reg hnd sid st hl).mp hmem)),
        if_neg hact, hl]

/-- Claim C9 amended-claim witness: at time 5 a lookup of the unknown id
`"b"` registers and refreshes it, and a reaper pass at time 1000 with
timeout 600 removes the stale session `"a"` from `c9Registry`. -/
theorem C9_get_session_and_reaper_witness :
    (get_session 5 ("b".toList) c9Registry).1.session_id = "b".toList ∧
    (get_session 5 ("b".toList) c9Registry).1.last_activity = 5 ∧
    (cleanup_pass 1000 600 c9Registry).lookup ("a".toList) = none := by
  obtain ⟨h1, h2, h3⟩ :=
    C9_get_session_and_reaper.1 5 ("b".toList) c9Registry (by decide)
  refine ⟨h1, h2, ?_⟩
  have h := C9_get_session_and_reaper.2 1000 600 c9Registry ("a".toList)
    (SessionState.init ("a".toList) 0) (by decide) (by decide)
  exact h.trans (by decide)

/-! ## Sensitive-data masking (`utils/security.py`) -/

/-- `SensitiveDataMasker.SENSITIVE_KEYS`. -/
def SENSITIVE_KEYS : List (List Char) :=
  ["api_key".toList, "apikey".toList, "api-key".toList,
    "subscription_key".toList, "key".toList, "token".toList,
    "password".toList, "pwd".toList, "secret".toList, "bearer_token".toList,
    "authorization".toList, "credential".toList, "credentials".toList]

/-- `key.lower().replace("-", "_")` (ASCII lowering, which covers every
configured sensitive key). -/
def pyLowerUnderscore (key : List Char) : List Char :=
  (key.map Char.toLower).map (fun c => if c = '-' then '_' else c)

/-- Python `pat in s` for strings: `pat` occurs as a contiguous substring. -/
def isSubstring (pat s : List Char) : Bool :=
  (List.range (s.length + 1)).any (fun i => pat.isPrefixOf (s.drop i))

/-- `SensitiveDataMasker.is_sensitive_key`: some configured sensitive name
occurs as a substring of the normalised key. -/
def is_sensitive_key (key : List Char) : Bool :=
  SENSITIVE_KEYS.any (fun pat => isSubstring pat (pyLowerUnderscore key))

/-- `SensitiveDataMasker.mask_value` restricted to string values: empty
values and non-sensitive keys pass through; a sensitive value of at most
4 characters becomes all asterisks; a longer one keeps its first 2 and last
2 characters with asterisks in between. -/
def mask_value (value key : List Char) : List Char :=
  if value.isEmpty then value
  else if !key.isEmpty && is_sensitive_key key then
    if value.length ≤ 4 then List.replicate value.length '*'
    else value.take 2 ++ List.replicate (value.length - 4) '*' ++
      value.drop (value.length - 2)
  else value

example : mask_value ("secret9876".toList) ("Api-Key".toList) =
    "se******76".toList := by decide

example : mask_value ("abc".toList) ("token".toList) = "***".toList := by decide

example : mask_value ("secret9876".toList) ("note".toList) =
    "secret9876".toList := by decide

/-! ### Claim C10 -/

lemma sensitive_key_ne_nil {key : List Char} (h : is_sensitive_key key = true) :
    key ≠ [] := by
  intro hnil
  subst hnil
  exact absurd h (by decide)

/-- Claim C10: masking a non-empty string value under a sensitive key
preserves its length, yields all asterisks when the value has at most 4
characters, and otherwise preserves exactly the first 2 and last 2
characters with asterisks in between; under a non-sensitive key the value
passes through unchanged. -/
theorem C10_mask_value (value key : List Char) (hv : value ≠ []) :
    (is_sensitive_key key = true →
      ((mask_value value key).length = value.length ∧
        (value.length ≤ 4 →
          mask_value value key = List.replicate value.length '*') ∧
        (4 < value.length →
          ((mask_value value key).take 2 = value.take 2 ∧
            (mask_value value key).drop (value.length - 2) =
              value.drop (value.length - 2) ∧
            ((mask_value value key).drop 2).take (value.length - 4) =
              List.replicate (value.length - 4) '*')))) ∧
    (is_sensitive_key key = false → mask_value value key = value) := by
  have hvemp : value.isEmpty = false := by
    rcases value with _ | ⟨a, l⟩
    · exact absurd rfl hv
    · rfl
  constructor
  · intro hsens
    have hkey : key.isEmpty = false := by
      rcases hk : key with _ | ⟨a, l⟩
      · exact absurd hk (sensitive_key_ne_nil hsens)
      · rfl
    have hcond : (!key.isEmpty && is_sensitive_key key) = true := by
      rw [hkey, hsens]
      rfl
    unfold mask_value
    rw [hvemp]
    simp only [Bool.false_eq_true, if_false, hcond, if_true]
    by_cases hlen : value.length ≤ 4
    · rw [if_pos hlen]
      refine ⟨List.length_replicate _ _, fun _ => rfl, fun h4 => absurd h4 (by omega)⟩
    · rw [if_neg hlen]
      push_neg at hlen
      have hl2 : (value.take 2).length = 2 :=
        (List.length_take 2 value).trans (by omega)
      have hlmid : (value.take 2 ++ List.replicate (value.length - 4) '*').length =
          value.length - 2 := by
        rw [List.length_append, hl2, List.length_replicate]
        omega
      refine ⟨?_, fun h4 => absurd h4 (by omega), fun _ => ⟨?_, ?_, ?_⟩⟩
      · rw [List.length_append, List.length_append, hl2, List.length_replicate,
          List.length_drop]
        omega
      · rw [List.append_assoc, List.take_append_eq_append_take, hl2]
        simp [List.take_take]
      · have hd := List.drop_left
          (value.take 2 ++ List.replicate (value.length - 4) '*')
          (value.drop (value.length - 2))
        rw [hlmid] at hd
        exact hd
      · rw [List.append_assoc]
        have hdrop := List.drop_left (value.take 2)
          (List.replicate (value.length - 4) '*' ++ value.drop (value.length - 2))
        rw [hl2] at hdrop
        rw [hdrop]
        have htake := List.take_left (List.replicate (value.length - 4) '*')
          (value.drop (value.length - 2))
        rw [List.length_replicate] at htake
        exact htake
  · intro hsens
    unfold mask_value
    rw [hvemp, hsens]
    simp

/-- Claim C10 witness: the key `"Api-Key"` is sensitive and masking the
10-character value keeps its length; the key `"note"` is not sensitive and
the value passes through. -/
theorem C10_mask_value_witness :
    ("secret9876".toList ≠ []) ∧
    is_sensitive_key ("Api-Key".toList) = true ∧
    (mask_value ("secret9876".toList) ("Api-Key".toList)).length =
      ("secret9876".toList).length ∧
    is_sensitive_key ("note".toList) = false ∧
    mask_value ("secret9876".toList) ("note".toList) = "secret9876".toList := by
  have h1 := C10_mask_value ("secret9876".toList) ("Api-Key".toList) (by decide)
  have h2 := C10_mask_value ("secret9876".toList) ("note".toList) (by decide)
  exact ⟨by decide, by decide, (h1.1 (by decide)).1, by decide, h2.2 (by decide)⟩

end RealtimeAI
